import Mathlib

/-!
Verification of the numerical core of the fi_nomad repository: the
model-free kernel utilities (src/fi_nomad/util/model_free_util.py) and the
kernel return-type dataclasses (src/fi_nomad/types/kernelReturnTypes.py).

Matrices are dense 2-D numpy arrays of floats.  We embed them shallowly as
a shape (rows, cols) together with a total entry function into the exact
rationals; entries outside the stated shape are irrelevant junk.  All three
utility functions are whole-matrix numpy expressions with no explicit shape
check, so operands of different shapes go through numpy broadcasting; we
model 2-D broadcasting faithfully (a dimension pair is compatible when the
dimensions are equal or one of them is 1, and an axis of extent 1 is read
at index 0).  Operations whose broadcasting can fail return an Option.
-/

/-- A dense 2-D numpy array (FloatArrayType).  Entries are modelled as
exact rationals; the entry function is total, and only the values at
indices inside the stated shape are meaningful. -/
structure NDArray where
  rows : Nat
  cols : Nat
  entry : Nat → Nat → ℚ

/-- Element-wise equality of two arrays in the sense of np.array_equal:
equal shapes and equal entries at every in-shape cell. -/
def NDArray.eqArr (A B : NDArray) : Prop :=
  A.rows = B.rows ∧ A.cols = B.cols ∧
    ∀ i j, i < A.rows → j < A.cols → A.entry i j = B.entry i j

/-- Numpy broadcasting of one axis pair: equal extents stay, an extent of 1
stretches to the other extent, anything else is a broadcast error. -/
def broadcastDim (a b : Nat) : Option Nat :=
  if a = b then some a
  else if a = 1 then some b
  else if b = 1 then some a
  else none

/-- Index used to read an operand axis of extent d inside a broadcast
result: an axis of extent 1 is always read at 0, otherwise at the result
index itself. -/
def bIdx (d i : Nat) : Nat :=
  if d = 1 then 0 else i

/-- Embedding of construct_utility(low_rank_matrix, base_matrix): the numpy
expression np.select([base_matrix > 0, low_rank_matrix < 0],
[base_matrix, low_rank_matrix], 0), which broadcasts the two operands to a
common shape and, per cell, takes the base entry when it is positive, else
the low-rank entry when it is negative, else 0.  None models the numpy
broadcast error raised for incompatible shapes. -/
def construct_utility (low_rank_matrix base_matrix : NDArray) : Option NDArray :=
  match broadcastDim low_rank_matrix.rows base_matrix.rows,
        broadcastDim low_rank_matrix.cols base_matrix.cols with
  | some r, some c =>
      some { rows := r, cols := c,
             entry := fun i j =>
               if 0 < base_matrix.entry (bIdx base_matrix.rows i) (bIdx base_matrix.cols j) then
                 base_matrix.entry (bIdx base_matrix.rows i) (bIdx base_matrix.cols j)
               else if low_rank_matrix.entry (bIdx low_rank_matrix.rows i)
                   (bIdx low_rank_matrix.cols j) < 0 then
                 low_rank_matrix.entry (bIdx low_rank_matrix.rows i)
                   (bIdx low_rank_matrix.cols j)
               else 0 }
  | _, _ => none

/-- Embedding of apply_momentum(current_X, previous_X, beta): the numpy
expression current_X + beta * (current_X - previous_X), broadcasting the
two operands to a common shape; beta is a scalar with no range check.
None models the numpy broadcast error raised for incompatible shapes. -/
def apply_momentum (current_X previous_X : NDArray) (beta : ℚ) : Option NDArray :=
  match broadcastDim current_X.rows previous_X.rows,
        broadcastDim current_X.cols previous_X.cols with
  | some r, some c =>
      some { rows := r, cols := c,
             entry := fun i j =>
               current_X.entry (bIdx current_X.rows i) (bIdx current_X.cols j) +
                 beta * (current_X.entry (bIdx current_X.rows i) (bIdx current_X.cols j) -
                   previous_X.entry (bIdx previous_X.rows i) (bIdx previous_X.cols j)) }
  | _, _ => none

/-- Embedding of reconstruct_X_from_L(low_rank_candidate_L):
np.maximum(0.0, low_rank_candidate_L), the element-wise maximum of the
scalar 0 with the matrix; the scalar broadcasts against any shape, so the
result always has the shape of the input and the operation is total. -/
def reconstruct_X_from_L (low_rank_candidate_L : NDArray) : NDArray :=
  { rows := low_rank_candidate_L.rows
    cols := low_rank_candidate_L.cols
    entry := fun i j => max 0 (low_rank_candidate_L.entry i j) }

/-- Embedding of the KernelReturnBase dataclass: every kernel result
carries a reconstruction matrix. -/
structure KernelReturnBase where
  reconstruction : NDArray

/-- Embedding of the BaseModelFreeKernelReturnType dataclass: the
model-free variant adds nothing beyond the reconstruction. -/
structure BaseModelFreeKernelReturnType where
  reconstruction : NDArray

/-- Embedding of the SingleVarianceGaussianModelKernelReturnType
dataclass: a reconstruction plus a scalar variance.  As in the source,
the constructor performs no validation of any kind. -/
structure SingleVarianceGaussianModelKernelReturnType where
  reconstruction : NDArray
  variance : ℚ

/-- Embedding of the RowwiseVarianceGaussianModelKernelReturnType
dataclass: a reconstruction plus a per-row variance vector (a 1-D float
array, modelled as a list of rationals).  As in the source, the
constructor performs no validation of any kind. -/
structure RowwiseVarianceGaussianModelKernelReturnType where
  reconstruction : NDArray
  variance : List ℚ

/-- Embedding of the KernelReturnDataType union: exactly one of the three
kernel result variants. -/
inductive KernelReturnDataType where
  | base (d : BaseModelFreeKernelReturnType)
  | single (d : SingleVarianceGaussianModelKernelReturnType)
  | rowwise (d : RowwiseVarianceGaussianModelKernelReturnType)

/-- Embedding of the top-level KernelReturnType dataclass: a free-text
summary together with one of the three data variants. -/
structure KernelReturnType where
  summary : String
  data : KernelReturnDataType

/-- Helper: inside the shape, the broadcast read index is the index
itself. -/
theorem bIdx_of_lt {d i : Nat} (h : i < d) : bIdx d i = i := by
  unfold bIdx
  split
  · omega
  · rfl

/-- Helper: broadcasting an axis with itself succeeds and keeps the
extent. -/
theorem broadcastDim_self (a : Nat) : broadcastDim a a = some a := by
  simp [broadcastDim]

/-- Helper: on operands of literally equal shape, construct_utility
returns the select-matrix explicitly. -/
theorem construct_utility_eq_some (L X : NDArray)
    (hr : L.rows = X.rows) (hc : L.cols = X.cols) :
    construct_utility L X =
      some { rows := X.rows, cols := X.cols,
             entry := fun i j =>
               if 0 < X.entry (bIdx X.rows i) (bIdx X.cols j) then
                 X.entry (bIdx X.rows i) (bIdx X.cols j)
               else if L.entry (bIdx L.rows i) (bIdx L.cols j) < 0 then
                 L.entry (bIdx L.rows i) (bIdx L.cols j)
               else 0 } := by
  have h1 : broadcastDim L.rows X.rows = some X.rows := by
    rw [hr]; exact broadcastDim_self X.rows
  have h2 : broadcastDim L.cols X.cols = some X.cols := by
    rw [hc]; exact broadcastDim_self X.cols
  unfold construct_utility
  rw [h1, h2]

/-- Helper: on operands of literally equal shape, apply_momentum returns
the extrapolated matrix explicitly. -/
theorem apply_momentum_eq_some (C P : NDArray) (beta : ℚ)
    (hr : C.rows = P.rows) (hc : C.cols = P.cols) :
    apply_momentum C P beta =
      some { rows := C.rows, cols := C.cols,
             entry := fun i j =>
               C.entry (bIdx C.rows i) (bIdx C.cols j) +
                 beta * (C.entry (bIdx C.rows i) (bIdx C.cols j) -
                   P.entry (bIdx P.rows i) (bIdx P.cols j)) } := by
  have h1 : broadcastDim C.rows P.rows = some C.rows := by
    rw [hr]; exact broadcastDim_self P.rows
  have h2 : broadcastDim C.cols P.cols = some C.cols := by
    rw [hc]; exact broadcastDim_self P.cols
  unfold apply_momentum
  rw [h1, h2]

/-- Sample concrete arrays used to instantiate universally quantified
theorems at concrete inputs. -/
def sampleL : NDArray := ⟨1, 1, fun _ _ => -1⟩

/-- Sample nonnegative 1-by-1 base matrix. -/
def sampleX : NDArray := ⟨1, 1, fun _ _ => 2⟩

/-- Sample 1-by-1 current iterate. -/
def sampleC : NDArray := ⟨1, 1, fun _ _ => 3⟩

/-- Sample 1-by-1 previous iterate. -/
def sampleP : NDArray := ⟨1, 1, fun _ _ => 1⟩

/-- Claim C1: for every nonnegative matrix X and every matrix L of the
same shape, construct_utility(L, X) succeeds and every in-shape cell of
the result equals X[i,j] when X[i,j] > 0 and min(0, L[i,j]) otherwise; in
particular a cell of the result is positive only where X is positive, and
equals exactly X[i,j] there. -/
theorem construct_utility_cell_spec (L X : NDArray) (i j : Nat)
    (hr : L.rows = X.rows) (hc : L.cols = X.cols)
    (_hX : ∀ a b, a < X.rows → b < X.cols → 0 ≤ X.entry a b)
    (hi : i < X.rows) (hj : j < X.cols) :
    ∃ Z, construct_utility L X = some Z ∧ Z.rows = X.rows ∧ Z.cols = X.cols ∧
      Z.entry i j = (if 0 < X.entry i j then X.entry i j else min 0 (L.entry i j)) ∧
      (0 < Z.entry i j → 0 < X.entry i j ∧ Z.entry i j = X.entry i j) := by
  have e1 : bIdx X.rows i = i := bIdx_of_lt hi
  have e2 : bIdx X.cols j = j := bIdx_of_lt hj
  have e3 : bIdx L.rows i = i := bIdx_of_lt (by rw [hr]; exact hi)
  have e4 : bIdx L.cols j = j := bIdx_of_lt (by rw [hc]; exact hj)
  refine ⟨_, construct_utility_eq_some L X hr hc, rfl, rfl, ?_, ?_⟩
  · show (if 0 < X.entry (bIdx X.rows i) (bIdx X.cols j) then
        X.entry (bIdx X.rows i) (bIdx X.cols j)
      else if L.entry (bIdx L.rows i) (bIdx L.cols j) < 0 then
        L.entry (bIdx L.rows i) (bIdx L.cols j) else 0) =
      (if 0 < X.entry i j then X.entry i j else min 0 (L.entry i j))
    rw [e1, e2, e3, e4]
    by_cases hx : 0 < X.entry i j
    · rw [if_pos hx, if_pos hx]
    · rw [if_neg hx, if_neg hx]
      by_cases hl : L.entry i j < 0
      · rw [if_pos hl, min_eq_right (le_of_lt hl)]
      · rw [if_neg hl, min_eq_left (le_of_not_lt hl)]
  · intro hpos
    have hpos2 : 0 <
        (if 0 < X.entry (bIdx X.rows i) (bIdx X.cols j) then
          X.entry (bIdx X.rows i) (bIdx X.cols j)
        else if L.entry (bIdx L.rows i) (bIdx L.cols j) < 0 then
          L.entry (bIdx L.rows i) (bIdx L.cols j) else 0) := hpos
    show 0 < X.entry i j ∧
      (if 0 < X.entry (bIdx X.rows i) (bIdx X.cols j) then
        X.entry (bIdx X.rows i) (bIdx X.cols j)
      else if L.entry (bIdx L.rows i) (bIdx L.cols j) < 0 then
        L.entry (bIdx L.rows i) (bIdx L.cols j) else 0) = X.entry i j
    clear hpos
    rw [e1, e2, e3, e4] at hpos2 ⊢
    by_cases hx : 0 < X.entry i j
    · exact ⟨hx, if_pos hx⟩
    · exfalso
      rw [if_neg hx] at hpos2
      by_cases hl : L.entry i j < 0
      · rw [if_pos hl] at hpos2; exact lt_irrefl 0 (lt_trans hpos2 hl)
      · rw [if_neg hl] at hpos2; exact lt_irrefl 0 hpos2

/-- Claim C1 witness: the cell specification evaluated at the concrete
pair sampleL, sampleX at cell (0, 0). -/
theorem construct_utility_cell_spec_witness :
    (∀ a b, a < sampleX.rows → b < sampleX.cols → 0 ≤ sampleX.entry a b) ∧
    (∃ Z, construct_utility sampleL sampleX = some Z ∧ Z.rows = sampleX.rows ∧
      Z.cols = sampleX.cols ∧
      Z.entry 0 0 =
        (if 0 < sampleX.entry 0 0 then sampleX.entry 0 0 else min 0 (sampleL.entry 0 0)) ∧
      (0 < Z.entry 0 0 → 0 < sampleX.entry 0 0 ∧ Z.entry 0 0 = sampleX.entry 0 0)) :=
  ⟨fun _ _ _ _ => by norm_num [sampleX],
   construct_utility_cell_spec sampleL sampleX 0 0 rfl rfl
     (fun _ _ _ _ => by norm_num [sampleX]) (by decide) (by decide)⟩

/-- Claim C3: reconstruct_X_from_L preserves the shape of L and every
in-shape cell of the result equals max(0, L[i,j]); hence the result has no
negative entries and agrees with L wherever L is nonnegative. -/
theorem reconstruct_X_from_L_cell_spec (L : NDArray) (i j : Nat)
    (_hi : i < L.rows) (_hj : j < L.cols) :
    (reconstruct_X_from_L L).rows = L.rows ∧
    (reconstruct_X_from_L L).cols = L.cols ∧
    (reconstruct_X_from_L L).entry i j = max 0 (L.entry i j) ∧
    0 ≤ (reconstruct_X_from_L L).entry i j ∧
    (0 ≤ L.entry i j → (reconstruct_X_from_L L).entry i j = L.entry i j) :=
  ⟨rfl, rfl, rfl, le_max_left 0 _, fun h => max_eq_right h⟩

/-- Claim C3 witness: the reconstruction cell specification evaluated at
the concrete matrix sampleL at cell (0, 0). -/
theorem reconstruct_X_from_L_cell_spec_witness :
    (reconstruct_X_from_L sampleL).rows = sampleL.rows ∧
    (reconstruct_X_from_L sampleL).cols = sampleL.cols ∧
    (reconstruct_X_from_L sampleL).entry 0 0 = max 0 (sampleL.entry 0 0) ∧
    0 ≤ (reconstruct_X_from_L sampleL).entry 0 0 ∧
    (0 ≤ sampleL.entry 0 0 → (reconstruct_X_from_L sampleL).entry 0 0 = sampleL.entry 0 0) :=
  reconstruct_X_from_L_cell_spec sampleL 0 0 (by decide) (by decide)

/-- Claim C5: for same-shaped current and previous, apply_momentum with
beta = 0 succeeds and its result is element-wise equal to current,
exactly. -/
theorem apply_momentum_beta_zero (C P : NDArray)
    (hr : C.rows = P.rows) (hc : C.cols = P.cols) :
    ∃ R, apply_momentum C P 0 = some R ∧ R.eqArr C := by
  refine ⟨_, apply_momentum_eq_some C P 0 hr hc, rfl, rfl, ?_⟩
  intro i j hi hj
  show C.entry (bIdx C.rows i) (bIdx C.cols j) +
      0 * (C.entry (bIdx C.rows i) (bIdx C.cols j) -
        P.entry (bIdx P.rows i) (bIdx P.cols j)) = C.entry i j
  rw [bIdx_of_lt hi, bIdx_of_lt hj, zero_mul, add_zero]

/-- Claim C5 witness: the beta = 0 identity evaluated at the concrete
pair sampleC, sampleP. -/
theorem apply_momentum_beta_zero_witness :
    sampleC.rows = sampleP.rows ∧
    (∃ R, apply_momentum sampleC sampleP 0 = some R ∧ R.eqArr sampleC) :=
  ⟨rfl, apply_momentum_beta_zero sampleC sampleP rfl rfl⟩

/-- Claim C6: for same-shaped current and previous and any scalar beta,
apply_momentum succeeds, keeps the shape, and every in-shape cell of the
result equals current[i,j] + beta * (current[i,j] - previous[i,j]); with
beta = 1 the cell equals 2 * current[i,j] - previous[i,j]. -/
theorem apply_momentum_cell_formula (C P : NDArray) (beta : ℚ) (i j : Nat)
    (hr : C.rows = P.rows) (hc : C.cols = P.cols)
    (hi : i < C.rows) (hj : j < C.cols) :
    ∃ R, apply_momentum C P beta = some R ∧ R.rows = C.rows ∧ R.cols = C.cols ∧
      R.entry i j = C.entry i j + beta * (C.entry i j - P.entry i j) ∧
      (∃ S, apply_momentum C P 1 = some S ∧
        S.entry i j = 2 * C.entry i j - P.entry i j) := by
  have e1 : bIdx C.rows i = i := bIdx_of_lt hi
  have e2 : bIdx C.cols j = j := bIdx_of_lt hj
  have e3 : bIdx P.rows i = i := bIdx_of_lt (by rw [← hr]; exact hi)
  have e4 : bIdx P.cols j = j := bIdx_of_lt (by rw [← hc]; exact hj)
  refine ⟨_, apply_momentum_eq_some C P beta hr hc, rfl, rfl, ?_,
    ⟨_, apply_momentum_eq_some C P 1 hr hc, ?_⟩⟩
  · show C.entry (bIdx C.rows i) (bIdx C.cols j) +
        beta * (C.entry (bIdx C.rows i) (bIdx C.cols j) -
          P.entry (bIdx P.rows i) (bIdx P.cols j)) =
      C.entry i j + beta * (C.entry i j - P.entry i j)
    rw [e1, e2, e3, e4]
  · show C.entry (bIdx C.rows i) (bIdx C.cols j) +
        1 * (C.entry (bIdx C.rows i) (bIdx C.cols j) -
          P.entry (bIdx P.rows i) (bIdx P.cols j)) =
      2 * C.entry i j - P.entry i j
    rw [e1, e2, e3, e4]
    ring

/-- Claim C6 witness: the per-cell momentum formula evaluated at the
concrete pair sampleC, sampleP with beta = 1/2 at cell (0, 0). -/
theorem apply_momentum_cell_formula_witness :
    ∃ R, apply_momentum sampleC sampleP (1/2) = some R ∧
      R.rows = sampleC.rows ∧ R.cols = sampleC.cols ∧
      R.entry 0 0 = sampleC.entry 0 0 + (1/2) * (sampleC.entry 0 0 - sampleP.entry 0 0) ∧
      (∃ S, apply_momentum sampleC sampleP 1 = some S ∧
        S.entry 0 0 = 2 * sampleC.entry 0 0 - sampleP.entry 0 0) :=
  apply_momentum_cell_formula sampleC sampleP (1/2) 0 0 rfl rfl (by decide) (by decide)

/-- Claim C7: reconstruct_X_from_L is idempotent; applying it twice gives
the same array as applying it once. -/
theorem reconstruct_X_from_L_idempotent (L : NDArray) :
    reconstruct_X_from_L (reconstruct_X_from_L L) = reconstruct_X_from_L L := by
  unfold reconstruct_X_from_L
  simp only [NDArray.mk.injEq, true_and]
  funext i j
  exact max_eq_right (le_max_left 0 _)

/-- Claim C2 counterexample: a 1-by-2 and a 2-by-1 operand differ in both
dimensions, yet construct_utility and apply_momentum both return a result
matrix (numpy broadcasting), so no ShapeMismatch error is raised. -/
theorem mismatched_shapes_return_result :
    (NDArray.mk 1 2 fun _ _ => 1).rows ≠ (NDArray.mk 2 1 fun _ _ => 2).rows ∧
    (NDArray.mk 1 2 fun _ _ => 1).cols ≠ (NDArray.mk 2 1 fun _ _ => 2).cols ∧
    (construct_utility (NDArray.mk 1 2 fun _ _ => 1)
      (NDArray.mk 2 1 fun _ _ => 2)).isSome = true ∧
    (apply_momentum (NDArray.mk 1 2 fun _ _ => 1)
      (NDArray.mk 2 1 fun _ _ => 2) (1/2)).isSome = true :=
  ⟨by decide, by decide, rfl, rfl⟩

/-- Claim C2 (amended): neither construct_utility nor apply_momentum
performs an eager shape check; each succeeds exactly when the operand
shapes are numpy-broadcast-compatible (axis extents equal or one of them
1), returning a broadcast result even for differently-shaped operands,
and fails only with the numpy broadcast error on incompatible shapes. -/
theorem momentum_utility_no_shape_check (A B : NDArray) (beta : ℚ) :
    ((construct_utility A B).isSome ↔
      (broadcastDim A.rows B.rows).isSome ∧ (broadcastDim A.cols B.cols).isSome) ∧
    ((apply_momentum A B beta).isSome ↔
      (broadcastDim A.rows B.rows).isSome ∧ (broadcastDim A.cols B.cols).isSome) := by
  unfold construct_utility apply_momentum
  rcases h1 : broadcastDim A.rows B.rows with _ | r <;>
    rcases h2 : broadcastDim A.cols B.cols with _ | c <;>
      simp [h1, h2]

/-- Claim C4 counterexample: constructing the single-variance envelope
with scalar variance -1, and the rowwise envelope with a variance vector
containing -1, both succeed and store the negative variance unchanged;
no assertion fires and a result envelope is produced. -/
theorem negative_variance_constructed :
    (-1 : ℚ) < 0 ∧
    (SingleVarianceGaussianModelKernelReturnType.mk
      (NDArray.mk 1 1 fun _ _ => 0) (-1)).variance = -1 ∧
    (RowwiseVarianceGaussianModelKernelReturnType.mk
      (NDArray.mk 1 1 fun _ _ => 0) [-1]).variance = [-1] :=
  ⟨by norm_num, rfl, rfl⟩

/-- Claim C4 (amended): the dataclass constructors perform no validation:
a negative scalar variance, or a variance vector with a negative entry,
is accepted, and the constructed envelope carries the reconstruction and
the variance unchanged. -/
theorem negative_variance_accepted (r : NDArray) (v : ℚ) (w : List ℚ)
    (_hv : v < 0) (_hw : ∃ x ∈ w, x < 0) :
    (SingleVarianceGaussianModelKernelReturnType.mk r v).variance = v ∧
    (SingleVarianceGaussianModelKernelReturnType.mk r v).reconstruction = r ∧
    (RowwiseVarianceGaussianModelKernelReturnType.mk r w).variance = w ∧
    (RowwiseVarianceGaussianModelKernelReturnType.mk r w).reconstruction = r :=
  ⟨rfl, rfl, rfl, rfl⟩

/-- Claim C4 (amended) witness: the unvalidated construction evaluated at
variance -2 and variance vector containing -3. -/
theorem negative_variance_accepted_witness :
    (-2 : ℚ) < 0 ∧ (∃ x ∈ [(-3 : ℚ)], x < 0) ∧
    (SingleVarianceGaussianModelKernelReturnType.mk sampleX (-2)).variance = -2 ∧
    (SingleVarianceGaussianModelKernelReturnType.mk sampleX (-2)).reconstruction = sampleX ∧
    (RowwiseVarianceGaussianModelKernelReturnType.mk sampleX [-3]).variance = [-3] ∧
    (RowwiseVarianceGaussianModelKernelReturnType.mk sampleX [-3]).reconstruction = sampleX := by
  have h := negative_variance_accepted sampleX (-2) [-3] (by norm_num)
    ⟨-3, by simp, by norm_num⟩
  exact ⟨by norm_num, ⟨-3, by simp, by norm_num⟩, h.1, h.2.1, h.2.2.1, h.2.2.2⟩

/-- Claim C8 counterexample: constructing the rowwise-variance envelope
with a 2-row reconstruction and a length-1 variance vector succeeds: the
mismatched vector is stored unchanged and no invariant check rejects the
construction. -/
theorem rowwise_length_mismatch_constructed :
    (RowwiseVarianceGaussianModelKernelReturnType.mk
      (NDArray.mk 2 2 fun _ _ => 0) [0]).variance.length ≠
      (RowwiseVarianceGaussianModelKernelReturnType.mk
        (NDArray.mk 2 2 fun _ _ => 0) [0]).reconstruction.rows ∧
    (RowwiseVarianceGaussianModelKernelReturnType.mk
      (NDArray.mk 2 2 fun _ _ => 0) [0]).variance = [0] :=
  ⟨by decide, rfl⟩

/-- Claim C8 (amended): the rowwise-variance dataclass constructor checks
nothing: even when the variance vector length differs from the row count
of the reconstruction, construction succeeds and stores both fields
unchanged. -/
theorem rowwise_length_mismatch_accepted (r : NDArray) (w : List ℚ)
    (_h : w.length ≠ r.rows) :
    (RowwiseVarianceGaussianModelKernelReturnType.mk r w).variance = w ∧
    (RowwiseVarianceGaussianModelKernelReturnType.mk r w).reconstruction = r :=
  ⟨rfl, rfl⟩

/-- Claim C8 (amended) witness: the unvalidated construction evaluated at
a 1-row reconstruction and a length-2 variance vector. -/
theorem rowwise_length_mismatch_accepted_witness :
    [(0 : ℚ), 0].length ≠ sampleX.rows ∧
    (RowwiseVarianceGaussianModelKernelReturnType.mk sampleX [0, 0]).variance = [0, 0] ∧
    (RowwiseVarianceGaussianModelKernelReturnType.mk sampleX [0, 0]).reconstruction = sampleX := by
  have h := rowwise_length_mismatch_accepted sampleX [0, 0] (by decide)
  exact ⟨by decide, h.1, h.2⟩

/-- Claim C9: for every nonnegative matrix X and same-shaped L, the
utility construction succeeds and clipping its result with
reconstruct_X_from_L gives back exactly X, element-wise. -/
theorem reconstruct_construct_roundtrip (L X : NDArray)
    (hr : L.rows = X.rows) (hc : L.cols = X.cols)
    (hX : ∀ a b, a < X.rows → b < X.cols → 0 ≤ X.entry a b) :
    ∃ Z, construct_utility L X = some Z ∧
      (reconstruct_X_from_L Z).eqArr X := by
  refine ⟨_, construct_utility_eq_some L X hr hc, rfl, rfl, ?_⟩
  intro i j hi hj
  have hi2 : i < X.rows := hi
  have hj2 : j < X.cols := hj
  have e1 : bIdx X.rows i = i := bIdx_of_lt hi2
  have e2 : bIdx X.cols j = j := bIdx_of_lt hj2
  have e3 : bIdx L.rows i = i := bIdx_of_lt (by rw [hr]; exact hi2)
  have e4 : bIdx L.cols j = j := bIdx_of_lt (by rw [hc]; exact hj2)
  show max 0
      (if 0 < X.entry (bIdx X.rows i) (bIdx X.cols j) then
        X.entry (bIdx X.rows i) (bIdx X.cols j)
      else if L.entry (bIdx L.rows i) (bIdx L.cols j) < 0 then
        L.entry (bIdx L.rows i) (bIdx L.cols j) else 0) = X.entry i j
  rw [e1, e2, e3, e4]
  by_cases hx : 0 < X.entry i j
  · rw [if_pos hx]
    exact max_eq_right (le_of_lt hx)
  · have hx0 : X.entry i j = 0 :=
      le_antisymm (le_of_not_lt hx) (hX i j hi2 hj2)
    rw [if_neg hx, hx0]
    by_cases hl : L.entry i j < 0
    · rw [if_pos hl]
      exact max_eq_left (le_of_lt hl)
    · rw [if_neg hl]
      exact max_self 0

/-- Claim C9 witness: the round trip evaluated at the concrete pair
sampleL, sampleX. -/
theorem reconstruct_construct_roundtrip_witness :
    (∀ a b, a < sampleX.rows → b < sampleX.cols → 0 ≤ sampleX.entry a b) ∧
    (∃ Z, construct_utility sampleL sampleX = some Z ∧
      (reconstruct_X_from_L Z).eqArr sampleX) :=
  ⟨fun _ _ _ _ => by norm_num [sampleX],
   reconstruct_construct_roundtrip sampleL sampleX rfl rfl
     (fun _ _ _ _ => by norm_num [sampleX])⟩

/-- Claim C10: applying momentum to a stationary sequence is a fixed
point: for every matrix M and every scalar beta, apply_momentum(M, M,
beta) succeeds and its result is element-wise equal to M. -/
theorem apply_momentum_fixed_point (M : NDArray) (beta : ℚ) :
    ∃ R, apply_momentum M M beta = some R ∧ R.eqArr M := by
  refine ⟨_, apply_momentum_eq_some M M beta rfl rfl, rfl, rfl, ?_⟩
  intro i j hi hj
  show M.entry (bIdx M.rows i) (bIdx M.cols j) +
      beta * (M.entry (bIdx M.rows i) (bIdx M.cols j) -
        M.entry (bIdx M.rows i) (bIdx M.cols j)) = M.entry i j
  rw [bIdx_of_lt hi, bIdx_of_lt hj, sub_self, mul_zero, add_zero]
